import Mathlib

/-!
Verification development for the XBT/DDS container converter
(`src/xbt_dds_converter.py`).

Shallow embedding conventions:
* Byte strings (`bytes`) are `List Nat`, each element intended `< 256`.
* Python `bytes.find` is `bytesFind`; `bytes.startswith` is `List.isPrefixOf`.
* The XML sidecar document is modelled structurally (`XMLElement`): tag,
  optional text, children.  The ElementTree serialize / minidom pretty-print
  / re-parse pipeline preserves the tag structure and the text of leaf
  elements (Python 3 minidom writes a lone text child inline), so writing a
  document to disk and parsing it back is identity on the parts the loader
  reads; text is `List Char` so that Python truthiness of `""` is `[]`.
* Errors raised via `raise ValueError(msg)` are distinguished by their
  message and modelled as explicit error constructors in `Except`.
-/

namespace XbtDds

/-- The wrapper magic `b'TBX\x00'` (line 1750 of the source). -/
def xbtMagic : List Nat := [84, 66, 88, 0]

/-- The payload magic `b'DDS '` (line 1757 of the source). -/
def ddsMagic : List Nat := [68, 68, 83, 32]

/-- Python `data.find(pat)`: index of the first occurrence of `pat` as a
contiguous sublist, `none` when absent (Python returns `-1`). -/
def bytesFind (pat : List Nat) : List Nat → Option Nat
  | [] => if pat.isPrefixOf ([] : List Nat) then some 0 else none
  | b :: rest =>
    if pat.isPrefixOf (b :: rest) then some 0
    else (bytesFind pat rest).map (· + 1)

/-- Python `struct.unpack('<I', data[i:i+4])[0]`: little-endian u32 read at
offset `i` (the callers guarantee the slice is in range). -/
def readU32LE (l : List Nat) (i : Nat) : Nat :=
  l.getD i 0 + 256 * l.getD (i + 1) 0 + 65536 * l.getD (i + 2) 0 +
    16777216 * l.getD (i + 3) 0

/-- The hex digit character for a value `< 16`, as Python writes them:
the decimal digits (codepoints from 48), then lowercase letters
(codepoint 97 for value 10, hence the offset 87). -/
def hexChar (n : Nat) : Char :=
  if n < 10 then Char.ofNat (48 + n) else Char.ofNat (87 + n)

/-- The two hex digits of one byte. -/
def byteToHex (b : Nat) : List Char := [hexChar (b / 16), hexChar (b % 16)]

/-- Python `bytes.hex()`: lowercase, two digits per byte, no separators. -/
def bytesHex (l : List Nat) : List Char := l.flatMap byteToHex

/-- ASCII whitespace as recognised by CPython's byte-level `Py_ISSPACE`
(used by `bytes.fromhex`): space, tab, newline, carriage return, vertical
tab, form feed.  Non-ASCII Unicode whitespace is NOT skipped there. -/
def isSpaceChar (c : Char) : Bool :=
  c == ' ' || c == '\t' || c == '\n' || c == '\r' ||
    c == Char.ofNat 11 || c == Char.ofNat 12

/-- Unicode whitespace as recognised by Python `str.isspace` /
`str.strip()`: the ASCII range 0x09-0x0D, the separators 0x1C-0x1F, space,
NEL 0x85, NBSP 0xA0, Ogham 0x1680, the 0x2000-0x200A spaces, line and
paragraph separators 0x2028/0x2029, 0x202F, 0x205F and ideographic space
0x3000.  Wider than `isSpaceChar`: `str.strip()` strips more than
`bytes.fromhex` skips. -/
def pyStripSpace (c : Char) : Bool :=
  (9 ≤ c.toNat && c.toNat ≤ 13) || (28 ≤ c.toNat && c.toNat ≤ 31) ||
    c.toNat == 32 || c.toNat == 133 || c.toNat == 160 || c.toNat == 5760 ||
    (8192 ≤ c.toNat && c.toNat ≤ 8202) || c.toNat == 8232 ||
    c.toNat == 8233 || c.toNat == 8239 || c.toNat == 8287 || c.toNat == 12288

/-- Python `str.strip()`: drop Unicode whitespace from both ends. -/
def strip (l : List Char) : List Char :=
  ((l.dropWhile pyStripSpace).reverse.dropWhile pyStripSpace).reverse

/-- A character the XML 1.0 recommendation forbids even escaped, within
the ASCII range produced by `.decode('ascii', errors='ignore')`: the
control characters other than tab, newline and carriage return.
`ElementTree.tostring` emits them raw and `minidom.parseString` then
raises `ExpatError`. -/
def xmlInvalidChar (c : Char) : Bool :=
  c.toNat < 32 && !(c.toNat == 9 || c.toNat == 10 || c.toNat == 13)

/-- Value of one hex digit by codepoint range (decimal digits, lowercase
letters, uppercase letters), accepting both cases as `bytes.fromhex` does. -/
def hexDigitVal (c : Char) : Option Nat :=
  if 48 ≤ c.toNat ∧ c.toNat ≤ 57 then some (c.toNat - 48)
  else if 97 ≤ c.toNat ∧ c.toNat ≤ 102 then some (c.toNat - 87)
  else if 65 ≤ c.toNat ∧ c.toNat ≤ 70 then some (c.toNat - 55)
  else none

/-- Python `bytes.fromhex` (CPython `_PyBytes_FromHex`): ASCII whitespace is
skipped between byte pairs; each byte is two immediately adjacent hex
digits; anything else (including an odd trailing digit, or whitespace
splitting a pair) fails. -/
def fromhexAux : List Char → Option (List Nat)
  | [] => some []
  | c :: rest =>
    if isSpaceChar c then fromhexAux rest
    else
      match rest with
      | [] => none
      | d :: rest2 =>
        match hexDigitVal c, hexDigitVal d with
        | some hi, some lo => (fromhexAux rest2).map (fun bs => (hi * 16 + lo) :: bs)
        | _, _ => none

/-- Python `bytes.fromhex`. -/
def bytesFromHex (l : List Char) : Option (List Nat) := fromhexAux l

/-- Structural model of an ElementTree XML element: tag, optional text,
children.  Text is a character list so that the Python falsiness test
`not elem.text` is `text = none ∨ text = some []`. -/
inductive XMLElement where
  | mk (tag : String) (text : Option (List Char)) (children : List XMLElement)

/-- The element's tag. -/
def XMLElement.tag : XMLElement → String
  | .mk t _ _ => t

/-- The element's text. -/
def XMLElement.text : XMLElement → Option (List Char)
  | .mk _ x _ => x

/-- The element's children. -/
def XMLElement.children : XMLElement → List XMLElement
  | .mk _ _ c => c

/-- `elem.find(tag)`: the first direct child with the given tag. -/
def XMLElement.findChild (e : XMLElement) (t : String) : Option XMLElement :=
  e.children.find? (fun c => c.tag == t)

/-- The error cases of `parse_xbt_header` (lines 1744-1767), distinguished
by the `ValueError` message raised: `"File too small to be valid XBT"`,
`"Invalid XBT signature"`, `"No DDS data found in XBT file"`. -/
inductive ParseErr where
  | tooSmall
  | invalidSignature
  | payloadNotFound
deriving DecidableEq, Repr

/-- `parse_xbt_header(self, data)` (lines 1744-1767): returns the declared
header size read at offset 8, the offset of the first `b'DDS '`
occurrence, and the raw slice `data[:dds_start]`. -/
def parse_xbt_header (data : List Nat) : Except ParseErr (Nat × Nat × List Nat) :=
  if data.length < 16 then .error .tooSmall
  else if data.take 4 ≠ xbtMagic then .error .invalidSignature
  else
    match bytesFind ddsMagic data with
    | none => .error .payloadNotFound
    | some ddsStart => .ok (readU32LE data 8, ddsStart, data.take ddsStart)

/-- Python `.decode('ascii', errors='ignore')`: bytes `< 128` become
characters, others are dropped. -/
def asciiDecodeIgnore (l : List Nat) : List Char :=
  l.filterMap (fun b => if b < 128 then some (Char.ofNat b) else none)

/-- The embedded-path text (lines 1804-1815): present when the header has
more than 28 bytes, a NUL byte occurs after offset 28, the decoded run
before it is nonempty, and it does not strip to the empty string.  Stored
UNstripped, as the source stores `embedded_path` itself. -/
def embeddedPathText (header : List Nat) : Option (List Char) :=
  if 28 < header.length then
    match bytesFind [0] (header.drop 28) with
    | some nullPos =>
      if 0 < nullPos then
        let p := asciiDecodeIgnore ((header.drop 28).take nullPos)
        if strip p ≠ [] then some p else none
      else none
    | none => none
  else none

/-- The optional metadata elements emitted for headers of at least 16 bytes
(lines 1781-1815): fixed fields, hash bytes when the header has at least 28
bytes, and the embedded path when present. -/
def metadataExtra (header : List Nat) : List XMLElement :=
  [.mk "Signature" (some (bytesHex (header.take 4))) [],
   .mk "Unknown1" (some (Nat.repr (readU32LE header 4)).toList) [],
   .mk "StoredHeaderSize" (some (Nat.repr (readU32LE header 8)).toList) [],
   .mk "Unknown2" (some (Nat.repr (readU32LE header 12)).toList) []] ++
  (if 28 ≤ header.length then
    [.mk "HashBytes" (some (bytesHex ((header.drop 16).take 12))) []]
   else []) ++
  (match embeddedPathText header with
   | some p => [.mk "EmbeddedPath" (some p) []]
   | none => [])

/-- The element tree built by `save_header_to_xml` (lines 1772-1819): root
`XBTHeader`, a `Metadata` child with the decoded diagnostic fields, and a
`RawHeaderData` child holding `header_data.hex()`. -/
def sidecarDoc (header : List Nat) : XMLElement :=
  .mk "XBTHeader" none
    [.mk "Metadata" none
      ([.mk "HeaderSize" (some (Nat.repr header.length).toList) [],
        .mk "CreatedBy" (some "XBT-DDS Converter".toList) []] ++
       (if 16 ≤ header.length then metadataExtra header else [])),
     .mk "RawHeaderData" (some (bytesHex header)) []]

/-- `save_header_to_xml(self, header_data, xml_path)` (lines 1769-1834):
builds `sidecarDoc`, then serializes with `ET.tostring` (which emits
XML-invalid control characters raw) and re-parses with
`minidom.parseString` before writing.  The only text that can carry such a
character is the embedded path (every other field is decimal or hex), so
the pretty-print step raises `ExpatError` — and the function returns
`False`, writing nothing — exactly when that text contains one; otherwise
the written-then-reparsed file is the structural document (leaf texts are
written inline and survive the round trip). -/
def save_header_to_xml (header : List Nat) : Option XMLElement :=
  match embeddedPathText header with
  | some p => if p.any xmlInvalidChar then none else some (sidecarDoc header)
  | none => some (sidecarDoc header)

/-- The error cases of `load_header_from_xml` (lines 1836-1871),
distinguished by the message: `"Invalid XML header file format"` (root tag),
`"No raw header data found in XML"`, and the `ValueError` raised by
`bytes.fromhex` on malformed hex. -/
inductive LoadErr where
  | invalidRootTag
  | missingRawHeader
  | malformedHex
deriving DecidableEq, Repr

/-- `load_header_from_xml(self, xml_path)` (lines 1836-1871) on an already
parsed document: requires root tag `XBTHeader`, requires a non-falsy
`RawHeaderData` text, and returns `bytes.fromhex(text.strip())`.  Metadata
children are only logged (lines 1856-1864) and never affect the result. -/
def load_header_from_xml (doc : XMLElement) : Except LoadErr (List Nat) :=
  if doc.tag ≠ "XBTHeader" then .error .invalidRootTag
  else
    match doc.findChild "RawHeaderData" with
    | none => .error .missingRawHeader
    | some e =>
      match e.text with
      | none => .error .missingRawHeader
      | some t =>
        if t.isEmpty then .error .missingRawHeader
        else
          match bytesFromHex (strip t) with
          | none => .error .malformedHex
          | some bs => .ok bs

/-- The error cases of `xbt_to_dds` (lines 1873-1905): a header-parsing
failure, or the `ValueError` `"Failed to save header to XML"` raised when
`save_header_to_xml` returns `False`. -/
inductive SplitErr where
  | parse (e : ParseErr)
  | saveHeaderFailed
deriving DecidableEq, Repr

/-- `xbt_to_dds` (lines 1873-1905) as the pure split operation: parse the
wrapper header, write the sidecar document from the header slice (failing
if the write fails), and keep `data[dds_start:]` as the payload. -/
def xbt_to_dds (data : List Nat) : Except SplitErr (List Nat × XMLElement) :=
  match parse_xbt_header data with
  | .error e => .error (.parse e)
  | .ok (_, ddsStart, header) =>
    match save_header_to_xml header with
    | none => .error .saveHeaderFailed
    | some doc => .ok (data.drop ddsStart, doc)

/-- The error cases of `dds_to_xbt` (lines 1907-1961): the `ValueError`
`"Invalid DDS file - missing DDS signature"`, and the `ValueError`
`"Failed to load header from XML file"` raised when
`load_header_from_xml` returned a falsy value (`None` or `b''`). -/
inductive JoinErr where
  | invalidPayloadSignature
  | headerLoadFailed
deriving DecidableEq, Repr

/-- `dds_to_xbt` (lines 1907-1961) as the pure join operation, with the
optional DDS-format normalization disabled (`fix_dds_format` off): check
the payload magic, load the header from the sidecar, reject a falsy header
(`if not header_data`), and concatenate. -/
def dds_to_xbt (payload : List Nat) (sidecar : XMLElement) :
    Except JoinErr (List Nat) :=
  if ¬ ddsMagic.isPrefixOf payload then .error .invalidPayloadSignature
  else
    match load_header_from_xml sidecar with
    | .error _ => .error .headerLoadFailed
    | .ok h => if h.isEmpty then .error .headerLoadFailed else .ok (h ++ payload)

/-!
Batch orchestrator model (`convert_batch`, lines 261-447, and its helpers).
Paths are modelled structurally: a file `dir/stem.ext` is the record
`⟨dir, stem, ext⟩`; `os.path.basename` yields `stem.ext`,
`os.path.splitext(...)[0] + ".xml"` yields `⟨dir, stem, "xml"⟩`, and
`os.path.join(convert_dir, stem + "." + e)` yields `⟨convert_dir, stem, e⟩`.
The filesystem is an association list from paths to file data with
prepend-on-write semantics (`fsLookup` takes the first match).
-/

/-- A file path `dir/stem.ext`, structurally. -/
structure FsPath where
  dir : String
  stem : String
  ext : String
deriving DecidableEq, Repr

/-- Stored file contents: raw bytes, or a parsed XML sidecar document
(an XML file on disk; binary reads of it never match either magic and XML
parses of a binary file fail). -/
inductive FileData where
  | bin (content : List Nat)
  | xml (doc : XMLElement)

/-- The filesystem: an association list, most recent write first. -/
def FS := List (FsPath × FileData)

/-- `os.path.exists` / reading a file: first matching entry. -/
def fsLookup : FS → FsPath → Option FileData
  | [], _ => none
  | e :: rest, p => if e.1 == p then some e.2 else fsLookup rest p

/-- Writing a file (create or overwrite). -/
def fsWrite (fs : FS) (p : FsPath) (d : FileData) : FS := (p, d) :: fs

/-- `os.path.splitext(input_path)[0] + ".xml"`: the sidecar path next to a
file (same directory, same stem). -/
def xmlSibling (p : FsPath) : FsPath := ⟨p.dir, p.stem, "xml"⟩

/-- The result of `detect_file_type` (lines 1729-1742). -/
inductive FileType where
  | xbt
  | dds
  | unknown
deriving DecidableEq, Repr

/-- `detect_file_type(self, filepath)` (lines 1729-1742): compare the first
four bytes with the two magics; any read failure (missing file, or an XML
file, whose serialized form starts with `<`) yields `unknown`. -/
def detect_file_type (fs : FS) (p : FsPath) : FileType :=
  match fsLookup fs p with
  | some (.bin c) =>
    if c.take 4 = xbtMagic then .xbt
    else if c.take 4 = ddsMagic then .dds
    else .unknown
  | some (.xml _) => .unknown
  | none => .unknown

/-- A resolved per-file conversion direction (`current_conversion`). -/
inductive ConvKind where
  | xbtToDds
  | ddsToXbt
deriving DecidableEq, Repr

/-- The requested conversion type (`self.conversion_type`). -/
inductive ConvType where
  | auto
  | xbtToDds
  | ddsToXbt
deriving DecidableEq, Repr

/-- The orchestrator configuration: requested direction,
`self.overwrite_existing`, and the flat output directory `convert_dir`. -/
structure Config where
  ctype : ConvType
  overwrite : Bool
  convertDir : String

/-- `check_conversion_requirements(self, input_path, conversion_type)`
(lines 1963-1971): a DDS→XBT conversion requires the sibling XML sidecar to
exist; anything else passes. -/
def check_conversion_requirements (fs : FS) (input : FsPath) (k : ConvKind) :
    Bool × String :=
  match k with
  | .ddsToXbt =>
    if (fsLookup fs (xmlSibling input)).isNone then
      (false, "Required XML header file not found: " ++ input.stem ++ ".xml")
    else (true, "")
  | .xbtToDds => (true, "")

/-- `xbt_to_dds_batch(self, input_path, output_path, xml_output_path)`
(lines 451-479) over the modelled filesystem: read the input, parse the
wrapper header, write the sidecar then the payload; any failure (missing
input, parse error, sidecar write failure) is caught and reported as
`False` with no writes. -/
def xbt_to_dds_batch (fs : FS) (input output xmlOut : FsPath) : Bool × FS :=
  match fsLookup fs input with
  | some (.bin data) =>
    match parse_xbt_header data with
    | .ok (_, ddsStart, header) =>
      match save_header_to_xml header with
      | some doc =>
        let fs1 := fsWrite fs xmlOut (.xml doc)
        (true, fsWrite fs1 output (.bin (data.drop ddsStart)))
      | none => (false, fs)
    | .error _ => (false, fs)
  | _ => (false, fs)

/-- `dds_to_xbt` (lines 1907-1961) over the modelled filesystem
(normalization disabled): read the payload, check its magic, load the
sibling sidecar, and write header ++ payload; any failure is caught and
reported as `False` with no writes. -/
def dds_to_xbt_file (fs : FS) (input output : FsPath) : Bool × FS :=
  match fsLookup fs input with
  | some (.bin payload) =>
    if ddsMagic.isPrefixOf payload then
      match fsLookup fs (xmlSibling input) with
      | some (.xml doc) =>
        match load_header_from_xml doc with
        | .ok h =>
          if h.isEmpty then (false, fs)
          else (true, fsWrite fs output (.bin (h ++ payload)))
        | .error _ => (false, fs)
      | _ => (false, fs)
    else (false, fs)
  | _ => (false, fs)

/-- The per-file outcome in the convert loop: each iteration increments
exactly one of the three counters; a skip records the logged reason. -/
inductive Outcome where
  | converted
  | skipped (reason : String)
  | errored
deriving DecidableEq, Repr

/-- The run summary counters (lines 363-365). -/
structure Summary where
  converted : Nat
  skipped : Nat
  errors : Nat
deriving DecidableEq, Repr

/-- Add one outcome to the summary. -/
def Summary.bump (s : Summary) : Outcome → Summary
  | .converted => { s with converted := s.converted + 1 }
  | .skipped _ => { s with skipped := s.skipped + 1 }
  | .errored => { s with errors := s.errors + 1 }

/-- One iteration of the convert loop (lines 367-427): resolve the
direction (by sniffing in auto mode), check prerequisites, skip existing
outputs unless overwriting, then convert; conversion failures and
exceptions are caught at the file boundary and become `errored`. -/
def processFile (cfg : Config) (fs : FS) (input : FsPath) : FS × Outcome :=
  let kindOpt : Option ConvKind :=
    match cfg.ctype with
    | .auto =>
      match detect_file_type fs input with
      | .xbt => some .xbtToDds
      | .dds => some .ddsToXbt
      | .unknown => none
    | .xbtToDds => some .xbtToDds
    | .ddsToXbt => some .ddsToXbt
  match kindOpt with
  | none =>
    (fs, .skipped ("Skipping unknown file type: " ++ input.stem ++ "." ++ input.ext))
  | some kind =>
    let req := check_conversion_requirements fs input kind
    if req.1 = false then (fs, .skipped req.2)
    else
      let outExt := match kind with | .xbtToDds => "dds" | .ddsToXbt => "xbt"
      let output : FsPath := ⟨cfg.convertDir, input.stem, outExt⟩
      if (fsLookup fs output).isSome ∧ cfg.overwrite = false then
        (fs, .skipped ("Skipping existing file: " ++ input.stem ++ "." ++ outExt))
      else
        match kind with
        | .xbtToDds =>
          let xmlOut : FsPath := ⟨cfg.convertDir, input.stem, "xml"⟩
          match xbt_to_dds_batch fs input output xmlOut with
          | (true, fs') => (fs', .converted)
          | (false, fs') => (fs', .errored)
        | .ddsToXbt =>
          match dds_to_xbt_file fs input output with
          | (true, fs') => (fs', .converted)
          | (false, fs') => (fs', .errored)

/-- The convert phase (lines 363-431): process the files in order,
threading the filesystem and accumulating the three counters; no per-file
outcome stops the loop. -/
def convertPhase (cfg : Config) : FS → List FsPath → FS × Summary
  | fs, [] => (fs, ⟨0, 0, 0⟩)
  | fs, f :: rest =>
    let r := processFile cfg fs f
    let w := convertPhase cfg r.1 rest
    (w.1, w.2.bump r.2)

/-- The staging loop (lines 313-329): copy each discovered wrapped file
into the flat extraction directory under its basename, skipping the copy
when the destination exists and overwrite is disabled; per-file copy
errors are caught and skipped. -/
def stageFiles (overwrite : Bool) (extractDir : String) :
    FS → List (FsPath × List Nat) → FS
  | fs, [] => fs
  | fs, f :: rest =>
    let dest : FsPath := ⟨extractDir, f.1.stem, f.1.ext⟩
    let fs' :=
      if (fsLookup fs dest).isNone || overwrite then fsWrite fs dest (.bin f.2)
      else fs
    stageFiles overwrite extractDir fs' rest

/-- The content of the last source file in the list whose basename is
`stem.ext` (`none` when there is no such file). -/
def lastWith (stem ext : String) : List (FsPath × List Nat) → Option (List Nat)
  | [] => none
  | f :: rest =>
    match lastWith stem ext rest with
    | some c => some c
    | none => if f.1.stem == stem && f.1.ext == ext then some f.2 else none

/-- The content of the first source file in the list whose basename is
`stem.ext` (`none` when there is no such file). -/
def firstWith (stem ext : String) : List (FsPath × List Nat) → Option (List Nat)
  | [] => none
  | f :: rest =>
    if f.1.stem == stem && f.1.ext == ext then some f.2
    else firstWith stem ext rest

/-- A 30-byte wrapper header — magic, twelve fixed bytes, twelve hash
bytes, then the embedded-path run `0x01` with its NUL terminator.  A valid
header byte sequence on which the source's sidecar write fails: the
decoded path text is the XML-invalid control character `0x01`. -/
def ctrlPathHeader : List Nat :=
  [84, 66, 88, 0] ++ List.replicate 12 0 ++ List.replicate 12 0 ++ [1, 0]

/-- A valid wrapped container carrying `ctrlPathHeader` and a 128-byte
payload starting with the payload magic. -/
def ctrlPathContainer : List Nat :=
  ctrlPathHeader ++ ([68, 68, 83, 32] ++ List.replicate 124 0)

/-! ### Hex codec lemmas -/

theorem hexDigitVal_hexChar (n : Nat) (h : n < 16) :
    hexDigitVal (hexChar n) = some n := by
  interval_cases n <;> decide

theorem isSpaceChar_hexChar (n : Nat) (h : n < 16) :
    isSpaceChar (hexChar n) = false := by
  interval_cases n <;> decide

theorem bytesHex_cons (b : Nat) (t : List Nat) :
    bytesHex (b :: t) = hexChar (b / 16) :: hexChar (b % 16) :: bytesHex t := by
  simp [bytesHex, byteToHex]

theorem fromhexAux_bytesHex (bs : List Nat) (h : ∀ b ∈ bs, b < 256) :
    fromhexAux (bytesHex bs) = some bs := by
  induction bs with
  | nil => rfl
  | cons b t ih =>
    have hb : b < 256 := h b (by simp)
    have h1 : b / 16 < 16 := by omega
    have h2 : b % 16 < 16 := by omega
    rw [bytesHex_cons, fromhexAux]
    simp only [isSpaceChar_hexChar _ h1, hexDigitVal_hexChar _ h1,
      hexDigitVal_hexChar _ h2, Bool.false_eq_true, if_false]
    rw [ih (fun x hx => h x (by simp [hx]))]
    have : b / 16 * 16 + b % 16 = b := by omega
    simp [this]

theorem dropWhile_eq_self_of_not (p : Char → Bool) (l : List Char)
    (h : ∀ c ∈ l, p c = false) : l.dropWhile p = l := by
  cases l with
  | nil => rfl
  | cons a t => simp [List.dropWhile_cons, h a (by simp)]

theorem strip_eq_self (l : List Char) (h : ∀ c ∈ l, pyStripSpace c = false) :
    strip l = l := by
  unfold strip
  rw [dropWhile_eq_self_of_not _ _ h,
    dropWhile_eq_self_of_not _ _ (fun c hc => h c (List.mem_reverse.mp hc)),
    List.reverse_reverse]

theorem pyStripSpace_hexChar (n : Nat) (h : n < 16) :
    pyStripSpace (hexChar n) = false := by
  interval_cases n <;> decide

theorem pyStripSpace_of_mem_bytesHex (bs : List Nat) (h : ∀ b ∈ bs, b < 256)
    (c : Char) (hc : c ∈ bytesHex bs) : pyStripSpace c = false := by
  rw [bytesHex, List.mem_flatMap] at hc
  obtain ⟨b, hb, hcb⟩ := hc
  have h256 := h b hb
  simp only [byteToHex, List.mem_cons, List.not_mem_nil, or_false] at hcb
  rcases hcb with rfl | rfl
  · exact pyStripSpace_hexChar _ (by omega)
  · exact pyStripSpace_hexChar _ (by omega)

theorem bytesHex_ne_nil (b : Nat) (t : List Nat) : bytesHex (b :: t) ≠ [] := by
  rw [bytesHex_cons]
  exact List.cons_ne_nil _ _

/-- The element tree built for the sidecar has root tag `XBTHeader`. -/
theorem sidecarDoc_tag (header : List Nat) :
    (sidecarDoc header).tag = "XBTHeader" := rfl

/-- The sidecar tree's first (and only) `RawHeaderData` child holds the
hex encoding of the header. -/
theorem sidecarDoc_findChild (header : List Nat) :
    (sidecarDoc header).findChild "RawHeaderData" =
      some (.mk "RawHeaderData" (some (bytesHex header)) []) := rfl

/-- Whenever the sidecar write succeeds, the document it wrote is the
element tree it built. -/
theorem save_eq_some (header : List Nat) (doc : XMLElement)
    (h : save_header_to_xml header = some doc) : doc = sidecarDoc header := by
  unfold save_header_to_xml at h
  cases hp : embeddedPathText header with
  | none =>
    simp only [hp] at h
    injection h with h2
    exact h2.symm
  | some p =>
    simp only [hp] at h
    by_cases hinv : p.any xmlInvalidChar = true
    · rw [if_pos hinv] at h
      exact Option.noConfusion h
    · rw [if_neg hinv] at h
      injection h with h2
      exact h2.symm

/-- Sidecar codec round trip: loading the document the write produced for
a nonempty byte sequence returns exactly those bytes. -/
theorem load_save (header : List Nat) (hne : header ≠ [])
    (hb : ∀ b ∈ header, b < 256) (doc : XMLElement)
    (hdoc : save_header_to_xml header = some doc) :
    load_header_from_xml doc = .ok header := by
  rw [save_eq_some header doc hdoc]
  obtain ⟨b, t, rfl⟩ : ∃ b t, header = b :: t := by
    cases header with
    | nil => exact absurd rfl hne
    | cons b t => exact ⟨b, t, rfl⟩
  have hx : bytesHex (b :: t) ≠ [] := bytesHex_ne_nil b t
  have hs : strip (bytesHex (b :: t)) = bytesHex (b :: t) :=
    strip_eq_self _ (pyStripSpace_of_mem_bytesHex _ hb)
  rw [load_header_from_xml, sidecarDoc_findChild]
  simp only [sidecarDoc_tag, ne_eq, not_true_eq_false, if_false,
    XMLElement.text, List.isEmpty_eq_true, hx, if_false, hs, bytesFromHex,
    fromhexAux_bytesHex _ hb]

/-! ### `bytesFind` lemmas -/

/-- A successful `find` points at an occurrence of the pattern. -/
theorem bytesFind_some_prefix (pat l : List Nat) (n : Nat)
    (h : bytesFind pat l = some n) : pat.isPrefixOf (l.drop n) = true := by
  induction l generalizing n with
  | nil =>
    rw [bytesFind] at h
    by_cases hp : pat.isPrefixOf ([] : List Nat)
    · rw [if_pos hp] at h
      cases h
      exact hp
    · rw [if_neg hp] at h
      cases h
  | cons a t ih =>
    rw [bytesFind] at h
    by_cases hp : pat.isPrefixOf (a :: t)
    · rw [if_pos hp] at h
      cases h
      exact hp
    · rw [if_neg hp] at h
      obtain ⟨m, hm, rfl⟩ := Option.map_eq_some'.mp h
      simpa using ih m hm

/-- When the payload itself starts with the magic, no occurrence of the
magic can straddle the header/payload boundary: a prefix match at the last
three header positions is impossible, and a full match inside the header
contradicts the header containing no occurrence. -/
theorem not_prefix_dds_append (b : Nat) (t ps : List Nat)
    (hp : ¬ ddsMagic.isPrefixOf (b :: t) = true) :
    ¬ ddsMagic.isPrefixOf (b :: (t ++ 68 :: 68 :: 83 :: 32 :: ps)) = true := by
  intro hcon
  cases t with
  | nil => simp [ddsMagic, List.isPrefixOf] at hcon
  | cons c t2 =>
    cases t2 with
    | nil => simp [ddsMagic, List.isPrefixOf] at hcon
    | cons d t3 =>
      cases t3 with
      | nil => simp [ddsMagic, List.isPrefixOf] at hcon
      | cons e t4 =>
        apply hp
        simp [ddsMagic, List.isPrefixOf] at hcon ⊢
        exact ⟨hcon.1, hcon.2.1, hcon.2.2.1, hcon.2.2.2⟩

/-- First-occurrence computation for a synthetic container: a header free
of the payload magic followed by a payload starting with it puts the first
occurrence exactly at the header length. -/
theorem bytesFind_append_dds (header ps : List Nat)
    (h : bytesFind ddsMagic header = none) :
    bytesFind ddsMagic (header ++ 68 :: 68 :: 83 :: 32 :: ps) =
      some header.length := by
  induction header with
  | nil =>
    rw [List.nil_append, bytesFind]
    simp [ddsMagic, List.isPrefixOf]
  | cons b t ih =>
    rw [bytesFind] at h
    by_cases hp : ddsMagic.isPrefixOf (b :: t)
    · rw [if_pos hp] at h
      cases h
    · rw [if_neg hp] at h
      have ht : bytesFind ddsMagic t = none := Option.map_eq_none'.mp h
      rw [List.cons_append, bytesFind,
        if_neg (not_prefix_dds_append b t ps hp), ih ht]
      rfl

/-! ### Claim theorems -/

/-- C2 (amended): for every valid (nonempty, byte-valued) header byte
sequence on which the sidecar write succeeds, reading back the document it
wrote returns exactly the original header bytes.  As the counterexample
forces, the write itself fails — producing no document to read — when the
header's embedded-path run contains an XML-invalid control character, so
the round trip holds conditionally on the write succeeding. -/
theorem sidecar_encode_decode_amended (header : List Nat) (hne : header ≠ [])
    (hb : ∀ b ∈ header, b < 256) (doc : XMLElement)
    (hdoc : save_header_to_xml header = some doc) :
    load_header_from_xml doc = .ok header :=
  load_save header hne hb doc hdoc

theorem sidecar_encode_decode_amended_witness :
    load_header_from_xml
      (sidecarDoc [84, 66, 88, 0, 1, 0, 0, 0, 16, 0, 0, 0, 2, 0, 0, 0]) =
      .ok [84, 66, 88, 0, 1, 0, 0, 0, 16, 0, 0, 0, 2, 0, 0, 0] :=
  sidecar_encode_decode_amended _ (by decide) (by decide) _ rfl

/-- C2 counterexample: a valid header byte sequence (wrapper magic, more
than 16 bytes, byte-valued, nonempty) whose embedded-path run decodes to
the control character `0x01`; the source's `save_header_to_xml` fails on
it (`minidom.parseString` raises `ExpatError` on the serialized text and
the function returns `False`, writing no file), so `read(write(header))`
cannot return the header, refuting the unconditional claim. -/
theorem sidecar_encode_decode_cex :
    ctrlPathHeader ≠ [] ∧ (∀ b ∈ ctrlPathHeader, b < 256) ∧
    ctrlPathHeader.take 4 = xbtMagic ∧ 16 ≤ ctrlPathHeader.length ∧
    save_header_to_xml ctrlPathHeader = none :=
  ⟨by decide, by decide, rfl, by decide, rfl⟩

/-- C1 (amended): for every valid wrapped container (at least 16 bytes,
starting with the wrapper magic, containing the payload magic) whose
header slice passes the sidecar write, splitting into payload and sidecar
and rejoining the unaltered payload with that sidecar (with normalization
disabled) reproduces the container byte-for-byte.  As the counterexample
forces, the split itself fails — so there is nothing to rejoin — on
containers whose header carries an XML-invalid control character in its
embedded-path run. -/
theorem roundtrip_split_join_amended (data : List Nat) (hlen : 16 ≤ data.length)
    (hmagic : data.take 4 = xbtMagic) (n : Nat)
    (hn : bytesFind ddsMagic data = some n)
    (hb : ∀ b ∈ data, b < 256)
    (hsave : (save_header_to_xml (data.take n)).isSome = true) :
    ∃ payload sidecar, xbt_to_dds data = .ok (payload, sidecar) ∧
      dds_to_xbt payload sidecar = .ok data := by
  obtain ⟨doc, hdoc⟩ := Option.isSome_iff_exists.mp hsave
  have h16 : ¬ data.length < 16 := by omega
  have hparse : parse_xbt_header data = .ok (readU32LE data 8, n, data.take n) := by
    rw [parse_xbt_header, if_neg h16, if_neg (by simp [hmagic]), hn]
  have hsplit : xbt_to_dds data = .ok (data.drop n, doc) := by
    rw [xbt_to_dds, hparse]
    simp only [hdoc]
  have hpre : ddsMagic.isPrefixOf (data.drop n) = true :=
    bytesFind_some_prefix _ _ _ hn
  have hn0 : n ≠ 0 := by
    intro h0
    subst h0
    rw [List.drop_zero] at hpre
    have htake : data.take 4 = ddsMagic := by
      have hp := List.isPrefixOf_iff_prefix.mp hpre
      simpa [ddsMagic] using (List.prefix_iff_eq_take.mp hp).symm
    rw [hmagic] at htake
    exact absurd htake (by decide)
  have hne : data.take n ≠ [] := by
    intro hnil
    rcases List.take_eq_nil_iff.mp hnil with h | h
    · exact hn0 h
    · rw [h] at hlen
      simp at hlen
  have hb' : ∀ b ∈ data.take n, b < 256 :=
    fun b hbm => hb b (List.mem_of_mem_take hbm)
  have hload := load_save (data.take n) hne hb' doc hdoc
  have hie : (data.take n).isEmpty = false := by simpa using hne
  refine ⟨data.drop n, doc, hsplit, ?_⟩
  rw [dds_to_xbt, if_neg (by simp [hpre]), hload]
  simp only [hie, Bool.false_eq_true, if_false, List.take_append_drop]

theorem roundtrip_split_join_amended_witness :
    ∃ payload sidecar,
      xbt_to_dds [84, 66, 88, 0, 0, 0, 0, 0, 0, 0, 0, 0, 0, 0, 0, 0, 68, 68, 83, 32] =
        .ok (payload, sidecar) ∧
      dds_to_xbt payload sidecar =
        .ok [84, 66, 88, 0, 0, 0, 0, 0, 0, 0, 0, 0, 0, 0, 0, 0, 68, 68, 83, 32] :=
  roundtrip_split_join_amended _ (by decide) (by decide) 16 (by decide)
    (by decide) (by decide)

set_option maxRecDepth 4000 in
/-- C1 counterexample: a valid wrapped container — wrapper magic at offset
0, payload magic at offset 30, all bytes valid — whose 30-byte header has
the control byte `0x01` as its embedded-path run; the source aborts the
split with "Failed to save header to XML" instead of producing a payload
and sidecar, refuting the round-trip claim for this valid container. -/
theorem roundtrip_split_join_cex :
    16 ≤ ctrlPathContainer.length ∧
    ctrlPathContainer.take 4 = xbtMagic ∧
    bytesFind ddsMagic ctrlPathContainer = some 30 ∧
    (∀ b ∈ ctrlPathContainer, b < 256) ∧
    xbt_to_dds ctrlPathContainer = .error .saveHeaderFailed :=
  ⟨by decide, rfl, by decide, by decide, rfl⟩

/-- C3 (amended): for a synthetic container made of an `N`-byte header
(16 ≤ N ≤ 40, starting with the wrapper magic, and — as the counterexample
forces — containing no occurrence of the payload magic) followed by a
payload starting with the payload magic, `parse_xbt_header` locates the
payload at offset exactly `N` and returns the header bytes
`container[0:N]` unchanged. -/
theorem header_boundary_amended (header payload : List Nat)
    (h16 : 16 ≤ header.length) (h40 : header.length ≤ 40)
    (hmagic : header.take 4 = xbtMagic)
    (hnodds : bytesFind ddsMagic header = none)
    (hpay : ddsMagic.isPrefixOf payload = true) :
    parse_xbt_header (header ++ payload) =
      .ok (readU32LE (header ++ payload) 8, header.length, header) := by
  obtain ⟨ps, rfl⟩ := List.isPrefixOf_iff_prefix.mp hpay
  have hfind : bytesFind ddsMagic (header ++ (ddsMagic ++ ps)) =
      some header.length := bytesFind_append_dds header ps hnodds
  have hlen : ¬ (header ++ (ddsMagic ++ ps)).length < 16 := by
    rw [List.length_append]
    omega
  have htake4 : (header ++ (ddsMagic ++ ps)).take 4 = xbtMagic := by
    rw [List.take_append_of_le_length (by omega), hmagic]
  rw [parse_xbt_header, if_neg hlen, if_neg (by simp [htake4]), hfind]
  simp only [List.take_left]

theorem header_boundary_amended_witness :
    parse_xbt_header
      ([84, 66, 88, 0, 0, 0, 0, 0, 0, 0, 0, 0, 0, 0, 0, 0] ++ [68, 68, 83, 32, 1]) =
      .ok (readU32LE
        ([84, 66, 88, 0, 0, 0, 0, 0, 0, 0, 0, 0, 0, 0, 0, 0] ++ [68, 68, 83, 32, 1]) 8,
        ([84, 66, 88, 0, 0, 0, 0, 0, 0, 0, 0, 0, 0, 0, 0, 0] : List Nat).length,
        [84, 66, 88, 0, 0, 0, 0, 0, 0, 0, 0, 0, 0, 0, 0, 0]) :=
  header_boundary_amended _ _ (by decide) (by decide) (by decide) (by decide)
    (by decide)

/-- C3 counterexample: a 16-byte header that itself contains the payload
magic at offset 4, followed by a valid payload; the split returns header
bytes of length 4, not 16, because the boundary is the first occurrence of
the magic anywhere in the stream. -/
theorem header_boundary_cex :
    ([84, 66, 88, 0, 68, 68, 83, 32, 0, 0, 0, 0, 0, 0, 0, 0] : List Nat).length = 16 ∧
    ([84, 66, 88, 0, 68, 68, 83, 32, 0, 0, 0, 0, 0, 0, 0, 0] : List Nat).take 4 =
      xbtMagic ∧
    ddsMagic.isPrefixOf [68, 68, 83, 32, 1] = true ∧
    parse_xbt_header
      ([84, 66, 88, 0, 68, 68, 83, 32, 0, 0, 0, 0, 0, 0, 0, 0] ++ [68, 68, 83, 32, 1]) =
      .ok (0, 4, [84, 66, 88, 0]) :=
  ⟨rfl, rfl, rfl, rfl⟩

/-- C6 (amended): `parse_xbt_header` fails with `tooSmall` on any input
shorter than 16 bytes (this check precedes everything else — the
counterexample forces adding this failure mode); on inputs of at least 16
bytes it fails with `invalidSignature` exactly when the first four bytes
are not the wrapper magic, fails with `payloadNotFound` exactly when the
magic is present but the payload magic never occurs, and succeeds
otherwise. -/
theorem parse_failure_modes_amended (data : List Nat) :
    (data.length < 16 → parse_xbt_header data = .error .tooSmall) ∧
    (16 ≤ data.length → data.take 4 ≠ xbtMagic →
      parse_xbt_header data = .error .invalidSignature) ∧
    (16 ≤ data.length → data.take 4 = xbtMagic →
      bytesFind ddsMagic data = none →
      parse_xbt_header data = .error .payloadNotFound) ∧
    (16 ≤ data.length → data.take 4 = xbtMagic →
      ∀ n, bytesFind ddsMagic data = some n →
        parse_xbt_header data = .ok (readU32LE data 8, n, data.take n)) := by
  refine ⟨?_, ?_, ?_, ?_⟩
  · intro h
    rw [parse_xbt_header, if_pos h]
  · intro h1 h2
    rw [parse_xbt_header, if_neg (by omega), if_pos h2]
  · intro h1 h2 h3
    rw [parse_xbt_header, if_neg (by omega), if_neg (by simp [h2]), h3]
  · intro h1 h2 n hn
    rw [parse_xbt_header, if_neg (by omega), if_neg (by simp [h2]), hn]

theorem parse_failure_modes_amended_witness :
    parse_xbt_header [84, 66, 88, 0, 0, 0, 0, 0, 0, 0, 0, 0, 68, 68, 83, 32] =
      .ok (readU32LE [84, 66, 88, 0, 0, 0, 0, 0, 0, 0, 0, 0, 68, 68, 83, 32] 8, 12,
        ([84, 66, 88, 0, 0, 0, 0, 0, 0, 0, 0, 0, 68, 68, 83, 32] : List Nat).take 12) :=
  (parse_failure_modes_amended _).2.2.2 (by decide) (by decide) 12 (by decide)

/-- C6 counterexample: an 8-byte input starting with the wrapper magic and
containing the payload magic is rejected with the `tooSmall` failure mode,
even though the claim allows only `invalidSignature` and `payloadNotFound`
as fatal failures and predicts success here. -/
theorem parse_failure_modes_cex :
    ([84, 66, 88, 0, 68, 68, 83, 32] : List Nat).take 4 = xbtMagic ∧
    bytesFind ddsMagic [84, 66, 88, 0, 68, 68, 83, 32] = some 4 ∧
    parse_xbt_header [84, 66, 88, 0, 68, 68, 83, 32] = .error .tooSmall :=
  ⟨rfl, rfl, rfl⟩

/-- C4 (amended): join fails with `invalidPayloadSignature` for any payload
not starting with the payload magic; for a payload that does, it returns
exactly the sidecar's header bytes concatenated with the payload, with no
transformation — provided the sidecar yields a nonempty header.  As the
counterexample forces, a sidecar read yielding empty header bytes (a
whitespace-only raw-hex field) is rejected by the falsy-header check
instead of producing the concatenation, and a failed sidecar read also
fails the join. -/
theorem join_behavior_amended (payload : List Nat) (sidecar : XMLElement) :
    (ddsMagic.isPrefixOf payload = false →
      dds_to_xbt payload sidecar = .error .invalidPayloadSignature) ∧
    (∀ h, ddsMagic.isPrefixOf payload = true →
      load_header_from_xml sidecar = .ok h → h ≠ [] →
      dds_to_xbt payload sidecar = .ok (h ++ payload)) ∧
    (ddsMagic.isPrefixOf payload = true →
      load_header_from_xml sidecar = .ok [] →
      dds_to_xbt payload sidecar = .error .headerLoadFailed) ∧
    (∀ e, ddsMagic.isPrefixOf payload = true →
      load_header_from_xml sidecar = .error e →
      dds_to_xbt payload sidecar = .error .headerLoadFailed) := by
  refine ⟨?_, ?_, ?_, ?_⟩
  · intro hp
    rw [dds_to_xbt, if_pos (by simp [hp])]
  · intro h hp hload hne
    rw [dds_to_xbt, if_neg (by simp [hp]), hload]
    simp only [List.isEmpty_eq_true, hne, if_false]
  · intro hp hload
    rw [dds_to_xbt, if_neg (by simp [hp]), hload]
    rfl
  · intro e hp hload
    rw [dds_to_xbt, if_neg (by simp [hp]), hload]

theorem join_behavior_amended_witness :
    dds_to_xbt [68, 68, 83, 32, 9]
      (.mk "XBTHeader" none [.mk "RawHeaderData" (some ['6', '1']) []]) =
      .ok ([97] ++ [68, 68, 83, 32, 9]) :=
  (join_behavior_amended _ _).2.1 [97] (by decide) rfl (by decide)

/-- C4 counterexample: a payload starting with the payload magic and a
sidecar whose raw-hex field is a single space; reading the sidecar succeeds
with empty header bytes, yet the join does not return those header bytes
concatenated with the payload — it fails on the falsy-header check. -/
theorem join_behavior_cex :
    load_header_from_xml
      (.mk "XBTHeader" none [.mk "RawHeaderData" (some [' ']) []]) = .ok [] ∧
    dds_to_xbt [68, 68, 83, 32, 1]
      (.mk "XBTHeader" none [.mk "RawHeaderData" (some [' ']) []]) =
      .error .headerLoadFailed ∧
    dds_to_xbt [68, 68, 83, 32, 1]
      (.mk "XBTHeader" none [.mk "RawHeaderData" (some [' ']) []]) ≠
      .ok ([] ++ [68, 68, 83, 32, 1]) :=
  ⟨rfl, rfl, fun h => nomatch h⟩

/-- C5 (amended): on a document with the expected root tag, reading
depends only on the raw-header hex field: it fails with `missingRawHeader`
when the field is absent or its text is falsy, fails with `malformedHex`
exactly when Python hex decoding of the Unicode-stripped text fails (an
odd number of hex digits, a pair split by whitespace, or an inner
character that is neither a hex digit nor ASCII whitespace — as the
counterexamples force, text with ASCII whitespace between byte pairs, or
with non-ASCII Unicode whitespace such as U+00A0 at its ends, decodes
successfully even though it has non-hex characters and possibly odd
length), succeeds with the decoded bytes otherwise, and gives identical
results on any two documents agreeing on that one field, regardless of
any metadata. -/
theorem sidecar_read_amended (doc : XMLElement) (hroot : doc.tag = "XBTHeader") :
    (doc.findChild "RawHeaderData" = none →
      load_header_from_xml doc = .error .missingRawHeader) ∧
    (∀ e, doc.findChild "RawHeaderData" = some e →
      (e.text = none ∨ e.text = some []) →
      load_header_from_xml doc = .error .missingRawHeader) ∧
    (∀ e t, doc.findChild "RawHeaderData" = some e → e.text = some t →
      t ≠ [] → bytesFromHex (strip t) = none →
      load_header_from_xml doc = .error .malformedHex) ∧
    (∀ e t bs, doc.findChild "RawHeaderData" = some e → e.text = some t →
      t ≠ [] → bytesFromHex (strip t) = some bs →
      load_header_from_xml doc = .ok bs) ∧
    (∀ doc2 : XMLElement, doc2.tag = "XBTHeader" →
      doc.findChild "RawHeaderData" = doc2.findChild "RawHeaderData" →
      load_header_from_xml doc = load_header_from_xml doc2) := by
  refine ⟨?_, ?_, ?_, ?_, ?_⟩
  · intro hfind
    rw [load_header_from_xml, if_neg (by simp [hroot]), hfind]
  · intro e hfind htext
    rw [load_header_from_xml, if_neg (by simp [hroot]), hfind]
    rcases htext with h | h <;> simp [h]
  · intro e t hfind htext hne hhex
    rw [load_header_from_xml, if_neg (by simp [hroot]), hfind]
    simp only [htext, List.isEmpty_eq_true, hne, if_false, hhex]
  · intro e t bs hfind htext hne hhex
    rw [load_header_from_xml, if_neg (by simp [hroot]), hfind]
    simp only [htext, List.isEmpty_eq_true, hne, if_false, hhex]
  · intro doc2 hroot2 hfind
    rw [load_header_from_xml, load_header_from_xml, if_neg (by simp [hroot]),
      if_neg (by simp [hroot2]), hfind]

theorem sidecar_read_amended_witness :
    load_header_from_xml
      (.mk "XBTHeader" none
        [.mk "Metadata" none [.mk "HeaderSize" (some ['b', 'a', 'd']) []],
         .mk "RawHeaderData" (some ['6', '1']) []]) = .ok [97] :=
  (sidecar_read_amended
    (.mk "XBTHeader" none
      [.mk "Metadata" none [.mk "HeaderSize" (some ['b', 'a', 'd']) []],
       .mk "RawHeaderData" (some ['6', '1']) []]) rfl).2.2.2.1
    (.mk "RawHeaderData" (some ['6', '1']) []) ['6', '1'] [97] rfl rfl
    (by decide) rfl

/-- C5 counterexample: two raw-hex texts for which the claim demands a
`MalformedHex` failure yet reading succeeds.  The first has five
characters — odd length and the non-hex `' '` — and decodes because
`bytes.fromhex` skips ASCII whitespace between byte pairs.  The second
starts with the non-hex, non-ASCII character U+00A0 and decodes because
Python `str.strip()` removes Unicode whitespace from the ends before the
hex decode. -/
theorem sidecar_read_cex :
    (['6', '1', ' ', '6', '2'] : List Char).length % 2 = 1 ∧
    load_header_from_xml
      (.mk "XBTHeader" none
        [.mk "RawHeaderData" (some ['6', '1', ' ', '6', '2']) []]) =
      .ok [97, 98] ∧
    load_header_from_xml
      (.mk "XBTHeader" none
        [.mk "RawHeaderData" (some [Char.ofNat 160, ' ', '6', '1']) []]) =
      .ok [97] :=
  ⟨rfl, rfl, rfl⟩

/-- C10: any document whose root element is not named `XBTHeader` fails to
load — even if it contains a well-formed raw-header hex field — and
therefore every join against it fails. -/
theorem root_tag_required (doc : XMLElement) (h : doc.tag ≠ "XBTHeader") :
    load_header_from_xml doc = .error .invalidRootTag ∧
    ∀ (payload bs : List Nat), dds_to_xbt payload doc ≠ .ok bs := by
  have hload : load_header_from_xml doc = .error .invalidRootTag := by
    rw [load_header_from_xml, if_pos h]
  refine ⟨hload, ?_⟩
  intro payload bs hcon
  rw [dds_to_xbt] at hcon
  by_cases hp : ddsMagic.isPrefixOf payload = true
  · rw [if_neg (by simp [hp]), hload] at hcon
    exact Except.noConfusion hcon
  · rw [if_pos (by simp [hp])] at hcon
    exact Except.noConfusion hcon

theorem root_tag_required_witness :
    load_header_from_xml
      (.mk "Header" none [.mk "RawHeaderData" (some ['6', '1']) []]) =
      .error .invalidRootTag ∧
    ∀ (payload bs : List Nat),
      dds_to_xbt payload
        (.mk "Header" none [.mk "RawHeaderData" (some ['6', '1']) []]) ≠
        .ok bs :=
  root_tag_required _ (by decide)

/-- C7: a payload file resolved to the DDS→XBT direction (explicitly, or by
sniffing a payload magic in auto mode) whose sibling sidecar document does
not exist is caught by `check_conversion_requirements` before any join is
attempted — the conclusion holds for arbitrary payload content and leaves
the filesystem untouched — and a batch run over it counts it in `skipped`
(not `errors`) with the descriptive reason. -/
theorem missing_sidecar_skipped (cfg : Config) (fs : FS) (input : FsPath)
    (hdir : cfg.ctype = ConvType.ddsToXbt ∨
      (cfg.ctype = ConvType.auto ∧
        ∃ c, fsLookup fs input = some (.bin c) ∧ c.take 4 = ddsMagic))
    (hxml : fsLookup fs (xmlSibling input) = none) :
    processFile cfg fs input =
      (fs, .skipped ("Required XML header file not found: " ++
        input.stem ++ ".xml")) ∧
    convertPhase cfg fs [input] = (fs, ⟨0, 1, 0⟩) := by
  obtain ⟨ct, ov, cd⟩ := cfg
  have hstep : processFile ⟨ct, ov, cd⟩ fs input =
      (fs, .skipped ("Required XML header file not found: " ++
        input.stem ++ ".xml")) := by
    rcases hdir with hct | ⟨hct, c, hc, htake⟩
    · simp only at hct
      subst hct
      simp [processFile, check_conversion_requirements, hxml]
    · simp only at hct
      subst hct
      simp [processFile, detect_file_type, hc, htake, xbtMagic, ddsMagic,
        check_conversion_requirements, hxml]
  exact ⟨hstep, by simp [convertPhase, hstep, Summary.bump]⟩

theorem missing_sidecar_skipped_witness :
    processFile ⟨ConvType.auto, false, "converted_dds_files"⟩
      [(⟨"folder", "photo", "dds"⟩, .bin [68, 68, 83, 32, 9])]
      ⟨"folder", "photo", "dds"⟩ =
      ([(⟨"folder", "photo", "dds"⟩, .bin [68, 68, 83, 32, 9])],
        .skipped "Required XML header file not found: photo.xml") ∧
    convertPhase ⟨ConvType.auto, false, "converted_dds_files"⟩
      [(⟨"folder", "photo", "dds"⟩, .bin [68, 68, 83, 32, 9])]
      [⟨"folder", "photo", "dds"⟩] =
      ([(⟨"folder", "photo", "dds"⟩, .bin [68, 68, 83, 32, 9])], ⟨0, 1, 0⟩) :=
  missing_sidecar_skipped _ _ _
    (Or.inr ⟨rfl, [68, 68, 83, 32, 9], rfl, rfl⟩) rfl

/-- C8: in the convert phase, every file in the conversion list increments
exactly one of the three counters — their sum over any run equals the
number of files — and the loop never aborts: the run over `f :: rest`
always continues with `rest` from the post-`f` filesystem and still
produces its summary, whatever the outcome (including `errored`) of `f`. -/
theorem convert_phase_counters (cfg : Config) (fs : FS) (files : List FsPath) :
    ((convertPhase cfg fs files).2.converted +
      (convertPhase cfg fs files).2.skipped +
      (convertPhase cfg fs files).2.errors = files.length) ∧
    (∀ f rest, convertPhase cfg fs (f :: rest) =
      ((convertPhase cfg (processFile cfg fs f).1 rest).1,
       ((convertPhase cfg (processFile cfg fs f).1 rest).2).bump
         (processFile cfg fs f).2)) := by
  refine ⟨?_, fun f rest => rfl⟩
  induction files generalizing fs with
  | nil => rfl
  | cons f rest ih =>
    have H := ih (processFile cfg fs f).1
    rw [convertPhase]
    cases ho : (processFile cfg fs f).2 <;>
      simp [Summary.bump, ho, List.length_cons] <;> omega

/-! ### Staging lemmas -/

theorem fsLookup_fsWrite (fs : FS) (p q : FsPath) (d : FileData) :
    fsLookup (fsWrite fs p d) q = if p == q then some d else fsLookup fs q := rfl

/-- With overwrite enabled every staged copy lands, so the staged content
at a basename is that of the last matching source file (or whatever was
there before, when no source file matches). -/
theorem stage_true_lookup (d s e : String) (files : List (FsPath × List Nat)) :
    ∀ fs : FS, fsLookup (stageFiles true d fs files) ⟨d, s, e⟩ =
      match lastWith s e files with
      | some c => some (.bin c)
      | none => fsLookup fs ⟨d, s, e⟩ := by
  induction files with
  | nil => intro fs; rfl
  | cons f rest ih =>
    intro fs
    rw [stageFiles]
    simp only [Bool.or_true, if_true]
    rw [ih]
    cases hl : lastWith s e rest with
    | some c => simp [lastWith, hl]
    | none =>
      simp only [lastWith, hl]
      rw [fsLookup_fsWrite]
      by_cases hc : f.1.stem = s ∧ f.1.ext = e
      · have h1 : ((⟨d, f.1.stem, f.1.ext⟩ : FsPath) == ⟨d, s, e⟩) = true := by
          simp [hc.1, hc.2]
        have h2 : (f.1.stem == s && f.1.ext == e) = true := by
          simp [hc.1, hc.2]
        simp [h1, h2]
      · have h1 : ((⟨d, f.1.stem, f.1.ext⟩ : FsPath) == ⟨d, s, e⟩) = false := by
          simp only [beq_eq_false_iff_ne, ne_eq, FsPath.mk.injEq]
          tauto
        have h2 : (f.1.stem == s && f.1.ext == e) = false := by
          rw [Bool.and_eq_false_iff]
          rcases not_and_or.mp hc with h | h
          · exact Or.inl (beq_eq_false_iff_ne.mpr h)
          · exact Or.inr (beq_eq_false_iff_ne.mpr h)
        simp [h1, h2]

/-- With overwrite disabled, a basename that already has staged content is
never overwritten by any later copy. -/
theorem stage_false_preserve (d s e : String) (files : List (FsPath × List Nat)) :
    ∀ (fs : FS) (v : FileData), fsLookup fs ⟨d, s, e⟩ = some v →
      fsLookup (stageFiles false d fs files) ⟨d, s, e⟩ = some v := by
  induction files with
  | nil => exact fun fs v h => h
  | cons f rest ih =>
    intro fs v h
    rw [stageFiles]
    simp only [Bool.or_false]
    refine ih _ _ ?_
    by_cases hw : (fsLookup fs ⟨d, f.1.stem, f.1.ext⟩).isNone = true
    · rw [if_pos hw, fsLookup_fsWrite]
      have hne : ((⟨d, f.1.stem, f.1.ext⟩ : FsPath) == ⟨d, s, e⟩) = false := by
        rcases hbe : ((⟨d, f.1.stem, f.1.ext⟩ : FsPath) == ⟨d, s, e⟩) with _ | _
        · rfl
        · have := beq_iff_eq.mp hbe
          rw [this, h] at hw
          cases hw
      simp [hne, h]
    · rw [if_neg hw]
      exact h

/-- With overwrite disabled and an initially absent destination, the first
matching source file wins the basename. -/
theorem stage_false_first (d s e : String) (files : List (FsPath × List Nat)) :
    ∀ (fs : FS) (c : List Nat), fsLookup fs ⟨d, s, e⟩ = none →
      firstWith s e files = some c →
      fsLookup (stageFiles false d fs files) ⟨d, s, e⟩ = some (.bin c) := by
  induction files with
  | nil =>
    intro fs c _ hf
    cases hf
  | cons f rest ih =>
    intro fs c h hf
    rw [firstWith] at hf
    by_cases hc : (f.1.stem == s && f.1.ext == e) = true
    · rw [if_pos hc] at hf
      cases hf
      have heq : (⟨d, f.1.stem, f.1.ext⟩ : FsPath) = ⟨d, s, e⟩ := by
        rw [Bool.and_eq_true] at hc
        rw [FsPath.mk.injEq]
        exact ⟨rfl, beq_iff_eq.mp hc.1, beq_iff_eq.mp hc.2⟩
      rw [stageFiles]
      simp only [Bool.or_false, heq, h, Option.isNone_none, if_true]
      exact stage_false_preserve d s e rest _ _ (by rw [fsLookup_fsWrite]; simp)
    · rw [if_neg hc] at hf
      rw [stageFiles]
      simp only [Bool.or_false]
      refine ih _ _ ?_ hf
      by_cases hw : (fsLookup fs ⟨d, f.1.stem, f.1.ext⟩).isNone = true
      · rw [if_pos hw, fsLookup_fsWrite]
        have hne : ((⟨d, f.1.stem, f.1.ext⟩ : FsPath) == ⟨d, s, e⟩) = false := by
          rcases hbe : ((⟨d, f.1.stem, f.1.ext⟩ : FsPath) == ⟨d, s, e⟩) with _ | _
          · rfl
          · exfalso
            have heq := beq_iff_eq.mp hbe
            rw [FsPath.mk.injEq] at heq
            apply hc
            rw [Bool.and_eq_true]
            exact ⟨beq_iff_eq.mpr heq.2.1, beq_iff_eq.mpr heq.2.2⟩
        simp [hne, h]
      · rw [if_neg hw]
        exact h

/-- C9 (amended): when staging flattens discovered wrapped files into the
single staging directory and several source files share a basename, the
collision is resolved last-write-wins only when overwrite is enabled: the
staged bytes are then those of the last such source file processed.  As
the counterexample forces, with overwrite disabled the staging loop skips
a copy whose destination already exists, so the first such source file
wins instead. -/
theorem staging_collision_amended (d : String) (fs0 : FS)
    (files : List (FsPath × List Nat)) (s e : String) :
    (∀ c, lastWith s e files = some c →
      fsLookup (stageFiles true d fs0 files) ⟨d, s, e⟩ = some (.bin c)) ∧
    (∀ c, fsLookup fs0 ⟨d, s, e⟩ = none → firstWith s e files = some c →
      fsLookup (stageFiles false d fs0 files) ⟨d, s, e⟩ = some (.bin c)) := by
  refine ⟨fun c hc => ?_, fun c h0 hc => stage_false_first d s e files fs0 c h0 hc⟩
  rw [stage_true_lookup d s e files fs0, hc]

theorem staging_collision_amended_witness :
    fsLookup
      (stageFiles true "extracted_xbt_files" []
        [(⟨"maps", "tex", "xbt"⟩, [1, 1]), (⟨"props", "tex", "xbt"⟩, [2, 2])])
      ⟨"extracted_xbt_files", "tex", "xbt"⟩ = some (.bin [2, 2]) :=
  (staging_collision_amended "extracted_xbt_files" []
    [(⟨"maps", "tex", "xbt"⟩, [1, 1]), (⟨"props", "tex", "xbt"⟩, [2, 2])]
    "tex" "xbt").1 [2, 2] rfl

/-- C9 counterexample: two source files from different subdirectories
sharing the basename `tex.xbt`, staged into an empty staging directory with
overwrite disabled (the default) — the staged bytes are those of the FIRST
file processed, not the last, because the second copy is skipped. -/
theorem staging_collision_cex :
    lastWith "tex" "xbt"
      [(⟨"maps", "tex", "xbt"⟩, [1, 1]), (⟨"props", "tex", "xbt"⟩, [2, 2])] =
      some [2, 2] ∧
    fsLookup
      (stageFiles false "extracted_xbt_files" []
        [(⟨"maps", "tex", "xbt"⟩, [1, 1]), (⟨"props", "tex", "xbt"⟩, [2, 2])])
      ⟨"extracted_xbt_files", "tex", "xbt"⟩ = some (.bin [1, 1]) ∧
    ([1, 1] : List Nat) ≠ [2, 2] :=
  ⟨rfl, rfl, by decide⟩

end XbtDds
